import Mathlib

/-!
Verification development for the sequant workflow orchestration engine.

Shallow embedding of the phase execution engine (src/commands/run.ts),
the state cleanup and reconciliation utilities
(src/lib/workflow/state-cleanup.ts, pr-status), the graceful shutdown
manager, and models of the persistent state store save path and of the
QA result cache (whose implementations are exercised only through their
test files in the tree, so those two are modelled from the spec).

Machine integers are modelled as Nat or Int; wall-clock instants are
milliseconds since the epoch as Nat. Fallible external collaborators
(gh, git) are modelled as oracle fields of an environment record, with
Option results standing for their null or failed outcomes.
-/

namespace Sequant

/-! ## Phase Execution Engine (src/commands/run.ts) -/

/-- Phase names are string literals in the source (spec, exec, qa, ...). -/
abbrev Phase := String

/-- Result of one phase, as built by executePhase. The wall-clock
durationSeconds field of the source record does not influence any control
flow and is omitted. -/
structure PhaseResult where
  phase : Phase
  success : Bool
  error : Option String := none
deriving DecidableEq, Repr

/-- The slice of ExecutionConfig that run.ts reads. -/
structure ExecutionConfig where
  phases : List Phase
  sequential : Bool
  dryRun : Bool
  /-- config.phaseTimeout, in seconds. -/
  phaseTimeoutS : Nat
deriving DecidableEq, Repr

/-- Signals the engine can send to the spawned process. -/
inductive Signal where
  | sigterm
  | sigkill
deriving DecidableEq, Repr

/-- The first lifecycle event emitted by the spawned child process:
either a close event with an exit code (none models a null code) or an
error event with a message. -/
inductive ProcEvent where
  | close (code : Option Int)
  | procError (msg : String)
deriving DecidableEq, Repr

/-- Rendering of the nullable exit code into the failure message of
executePhase, matching JS template interpolation of a nullable number. -/
def renderCode : Option Int → String
  | some c => toString c
  | none => "null"

/-- executePhase (run.ts lines 60 to 142). The child behavior is the
first event it emits together with the time in milliseconds at which it
arrives; none means the child never emits close nor error, in which case
the promise never resolves. Returns the resolved PhaseResult (none when
unresolved) and the list of signals the engine sent to the child. The
engine arms a single timer at phaseTimeout seconds which marks the phase
killed and sends SIGTERM; the spawn timeout option of the source uses the
default kill signal, which is also SIGTERM. -/
def executePhase (phase : Phase) (config : ExecutionConfig)
    (event : Option (Nat × ProcEvent)) : Option PhaseResult × List Signal :=
  if config.dryRun then
    (some { phase := phase, success := true }, [])
  else
    let timeoutMs := config.phaseTimeoutS * 1000
    match event with
    | none => (none, [Signal.sigterm])
    | some (t, ProcEvent.close code) =>
      if timeoutMs ≤ t then
        (some { phase := phase, success := false,
                error := some ("Timeout after " ++ toString config.phaseTimeoutS ++ "s") },
         [Signal.sigterm])
      else if code = some 0 then
        (some { phase := phase, success := true }, [])
      else
        (some { phase := phase, success := false,
                error := some ("Exit code " ++ renderCode code) }, [])
    | some (t, ProcEvent.procError msg) =>
      if timeoutMs ≤ t then
        (some { phase := phase, success := false, error := some msg }, [Signal.sigterm])
      else
        (some { phase := phase, success := false, error := some msg }, [])

/-- The phase loop of runIssueWithLogging (run.ts lines 385 to 420):
phases run in order, each result is pushed, and the loop breaks right
after the first failed phase. exec abstracts the resolved result of
executePhase for each phase. -/
def runPhases (phases : List Phase) (exec : Phase → PhaseResult) : List PhaseResult :=
  match phases with
  | [] => []
  | p :: rest =>
    let r := exec p
    if r.success then r :: runPhases rest exec else [r]

/-- Per issue outcome record, as returned by runIssueWithLogging. -/
structure IssueResult where
  issueNumber : Nat
  success : Bool
  phaseResults : List PhaseResult
deriving DecidableEq, Repr

/-- runIssueWithLogging (run.ts lines 375 to 431): run the configured
phases in order with fail fast, then report success iff every recorded
phase result succeeded. -/
def runIssueWithLogging (issueNumber : Nat) (config : ExecutionConfig)
    (exec : Nat → Phase → PhaseResult) : IssueResult :=
  let prs := runPhases config.phases (exec issueNumber)
  { issueNumber := issueNumber, success := prs.all (·.success), phaseResults := prs }

/-- The sequential branch of the execution loop of runCommand (run.ts
lines 273 to 298): one issue chain completes fully before the next
starts, and the remaining queue is abandoned after the first issue whose
result is not a success. -/
def runIssuesSequential (issues : List Nat) (config : ExecutionConfig)
    (exec : Nat → Phase → PhaseResult) : List IssueResult :=
  match issues with
  | [] => []
  | i :: rest =>
    let r := runIssueWithLogging i config exec
    if r.success then r :: runIssuesSequential rest config exec else [r]

/-- The execution loop of runCommand (run.ts lines 273 to 317): the
non-sequential (fan-out) branch iterates every issue without stopping on
failure. -/
def runIssues (config : ExecutionConfig) (issues : List Nat)
    (exec : Nat → Phase → PhaseResult) : List IssueResult :=
  if config.sequential then runIssuesSequential issues config exec
  else issues.map (fun i => runIssueWithLogging i config exec)

/-- Environment probed by the early checks of runCommand: whether
getManifest finds a manifest and whether the claude CLI responds. -/
structure RunEnv where
  manifestPresent : Bool
  claudeAvailable : Bool
deriving DecidableEq, Repr

/-- runCommand (run.ts lines 183 to 370) up to its result list:
early returns (missing manifest; missing claude CLI outside dry run; no
valid issue numbers) yield none and execute nothing; otherwise the
execution loop runs over the parsed issue numbers. -/
def runCommandResults (env : RunEnv) (config : ExecutionConfig)
    (issueNumbers : List Nat) (exec : Nat → Phase → PhaseResult) :
    Option (List IssueResult) :=
  if ¬env.manifestPresent then none
  else if ¬config.dryRun ∧ ¬env.claudeAvailable then none
  else if issueNumbers.isEmpty then none
  else some (runIssues config issueNumbers exec)

/-- Process exit code of runCommand (run.ts lines 366 to 369): exit 1
iff some executed issue failed and this is not a dry run; every other
path, the early returns included, ends the process with code 0. -/
def runCommandExitCode (env : RunEnv) (config : ExecutionConfig)
    (issueNumbers : List Nat) (exec : Nat → Phase → PhaseResult) : Nat :=
  match runCommandResults env config issueNumbers exec with
  | none => 0
  | some results =>
    if 0 < (results.filter (fun r => ¬r.success)).length ∧ ¬config.dryRun then 1 else 0

/-- The reading of the claim that every requested issue completed
successfully: each requested issue number has a successful result in the
recorded result list. -/
def allRequestedSucceeded (issueNumbers : List Nat)
    (results : Option (List IssueResult)) : Prop :=
  ∀ i ∈ issueNumbers, ∃ r ∈ results.getD [], r.issueNumber = i ∧ r.success = true

instance (issueNumbers : List Nat) (results : Option (List IssueResult)) :
    Decidable (allRequestedSucceeded issueNumbers results) := by
  unfold allRequestedSucceeded; infer_instance

/-! ## Workflow state schema (state-schema, the slice state-cleanup reads) -/

/-- Issue status enumeration of the workflow state schema. -/
inductive IssueStatus where
  | notStarted
  | inProgress
  | readyForMerge
  | merged
  | blocked
  | abandoned
deriving DecidableEq, Repr

/-- Issue workflow record, restricted to the fields read or written by
state-cleanup.ts: status, the optional worktree path, the optional
branch name, the optional PR number (the url of the PR reference and the
phase map never influence cleanup or reconciliation), and lastActivity,
an ISO timestamp modelled as milliseconds since the epoch. -/
structure IssueState where
  number : Nat
  title : String
  status : IssueStatus
  worktree : Option String := none
  branch : Option String := none
  pr : Option Nat := none
  lastActivityMs : Nat := 0
deriving DecidableEq, Repr

/-- The workflow state document: issue number keyed map of issue
records, modelled as an association list in enumeration order, plus the
lastUpdated stamp (milliseconds). Keys of a JS object are unique. -/
structure WorkflowState where
  lastUpdatedMs : Nat := 0
  issues : List (Nat × IssueState) := []
deriving DecidableEq, Repr

/-- PR merge status as returned by the gh CLI (pr-status, part of the
tree as an unnamed file): the null outcome of checkPRMergeStatus is the
none of the oracle below. -/
inductive PRMergeStatus where
  | MERGED
  | CLOSED
  | OPEN
deriving DecidableEq, Repr

/-- Outcomes of the external collaborators that state-cleanup.ts calls.
checkPRMergeStatus returns none when gh fails or the PR is unknown;
isIssueMergedIntoMain returns false when every git probe fails;
getActiveWorktrees returns the empty list when git fails. saveErr is the
exception (if any) raised by StateManager.saveState, which the source
catches. nowMs is Date.now(). -/
structure CollabEnv where
  checkPRMergeStatus : Nat → Option PRMergeStatus
  isIssueMergedIntoMain : Nat → Bool
  activeWorktrees : List String
  saveErr : Option String := none
  nowMs : Nat := 0

/-- Outcome of StateManager state loading as seen by state-cleanup.ts:
the state file may be missing (stateExists false), load normally, or
raise (the catch blocks render the exception with String). -/
inductive LoadOutcome where
  | missing
  | ok (s : WorkflowState)
  | raised (e : String)

/-- Whether the issue record has a PR whose status gh reports as merged,
matching the prMerged computation of cleanupStaleEntries: the PR number
is consulted only when present (PR numbers are positive, so the JS
truthiness test on pr?.number is presence). -/
def prMergedFor (env : CollabEnv) (st : IssueState) : Bool :=
  match st.pr with
  | some p => env.checkPRMergeStatus p = some PRMergeStatus.MERGED
  | none => false

/-- Result record of cleanupStaleEntries. -/
structure CleanupResult where
  success : Bool
  removed : List Nat
  orphaned : List Nat
  merged : List Nat
  error : Option String := none
deriving DecidableEq, Repr

/-- Options of cleanupStaleEntries that influence control flow.
maxAgeDays none models both an absent option and the JS falsy zero. -/
structure CleanupOptions where
  dryRun : Bool := false
  removeAll : Bool := false
  maxAgeDays : Option Nat := none
deriving DecidableEq, Repr

/-- One loop iteration of cleanupStaleEntries (state-cleanup.ts lines
108 to 198) on a single entry. Returns the entries kept in the document
(empty on deletion), and the contributions appended to the removed,
orphaned and merged lists. The age rule fires only for a truthy
maxAgeDays, on merged or abandoned entries, when ageDays strictly
exceeds the limit; in dry run the document is never mutated. -/
def cleanupEntry (opts : CleanupOptions) (env : CollabEnv)
    (e : Nat × IssueState) :
    List (Nat × IssueState) × List Nat × List Nat × List Nat :=
  let n := e.1
  let st := e.2
  let ageCheck :
      List (Nat × IssueState) × List Nat × List Nat × List Nat :=
    match opts.maxAgeDays with
    | some d =>
      if 0 < d ∧ (st.status = IssueStatus.merged ∨ st.status = IssueStatus.abandoned) ∧
          d * 86400000 < env.nowMs - st.lastActivityMs then
        (if opts.dryRun then [(n, st)] else [], [n], [], [])
      else ([(n, st)], [], [], [])
    | none => ([(n, st)], [], [], [])
  match st.worktree with
  | some w =>
    if w ∉ env.activeWorktrees then
      let prMerged := prMergedFor env st
      if ¬opts.dryRun then
        if prMerged ∨ st.status = IssueStatus.merged then
          ([], [n], [], [n])
        else if st.status = IssueStatus.abandoned ∨ opts.removeAll then
          ([], [n], [n], [])
        else
          ([(n, { st with status := IssueStatus.abandoned })], [], [n], [])
      else
        if prMerged ∨ st.status = IssueStatus.merged then
          ([(n, st)], [n], [], [n])
        else if st.status = IssueStatus.abandoned ∨ opts.removeAll then
          ([(n, st)], [n], [n], [])
        else
          ([(n, st)], [], [n], [])
    else ageCheck
  | none => ageCheck

/-- cleanupStaleEntries (state-cleanup.ts lines 82 to 220): missing
state file yields an empty success; a load exception is caught and
rendered; otherwise every entry is processed independently, the state is
saved when something changed outside dry run (a save exception is also
caught), and the resulting document is returned alongside the result. -/
def cleanupStaleEntries (opts : CleanupOptions) (env : CollabEnv)
    (load : LoadOutcome) : CleanupResult × Option WorkflowState :=
  match load with
  | LoadOutcome.missing =>
    ({ success := true, removed := [], orphaned := [], merged := [] }, none)
  | LoadOutcome.raised e =>
    ({ success := false, removed := [], orphaned := [], merged := [],
       error := some e }, none)
  | LoadOutcome.ok s =>
    let parts := s.issues.map (cleanupEntry opts env)
    let newIssues := (parts.map (·.1)).flatten
    let removed := (parts.map (·.2.1)).flatten
    let orphaned := (parts.map (·.2.2.1)).flatten
    let mergedL := (parts.map (·.2.2.2)).flatten
    let needsSave := ¬opts.dryRun ∧ (removed ≠ [] ∨ orphaned ≠ [])
    if needsSave then
      match env.saveErr with
      | some e =>
        ({ success := false, removed := [], orphaned := [], merged := [],
           error := some e }, none)
      | none =>
        ({ success := true, removed := removed, orphaned := orphaned,
           merged := mergedL }, some { s with issues := newIssues })
    else
      ({ success := true, removed := removed, orphaned := orphaned,
         merged := mergedL }, some { s with issues := newIssues })

/-- The combined merge evidence reconcileStateAtStartup gathers for one
issue: a PR reported MERGED by gh or a branch the git probes report
merged into main. -/
def prOrBranchMerged (env : CollabEnv) (n : Nat) (st : IssueState) : Bool :=
  (match st.pr with
   | some p => decide (env.checkPRMergeStatus p = some PRMergeStatus.MERGED)
   | none => false) || env.isIssueMergedIntoMain n

/-- Result record of reconcileStateAtStartup. -/
structure ReconcileResult where
  success : Bool
  advanced : List Nat
  stillPending : List Nat
  error : Option String := none
deriving DecidableEq, Repr

/-- One loop iteration of reconcileStateAtStartup (state-cleanup.ts
lines 274 to 311) on a single entry: issues that are not ready_for_merge
are skipped (verdict none); otherwise the PR oracle is consulted first
and, when it does not report MERGED (failure included), the git branch
oracle; a positive outcome advances the entry to merged and stamps
lastActivity (verdict some true), a negative one leaves it untouched
(verdict some false). -/
def reconcileEntry (env : CollabEnv) (e : Nat × IssueState) :
    (Nat × IssueState) × Option Bool :=
  let n := e.1
  let st := e.2
  if st.status ≠ IssueStatus.readyForMerge then (e, none)
  else
    let prMerged :=
      match st.pr with
      | some p => env.checkPRMergeStatus p = some PRMergeStatus.MERGED
      | none => false
    let isMerged := prMerged || env.isIssueMergedIntoMain n
    if isMerged then
      ((n, { st with status := IssueStatus.merged, lastActivityMs := env.nowMs }),
       some true)
    else (e, some false)

/-- reconcileStateAtStartup (state-cleanup.ts lines 251 to 331): missing
state file yields an empty success; a load exception is caught and
rendered; otherwise every entry is reconciled, the state is saved only
when some issue advanced (a save exception is also caught), and the
resulting document is returned alongside the result. -/
def reconcileStateAtStartup (env : CollabEnv) (load : LoadOutcome) :
    ReconcileResult × Option WorkflowState :=
  match load with
  | LoadOutcome.missing =>
    ({ success := true, advanced := [], stillPending := [] }, none)
  | LoadOutcome.raised e =>
    ({ success := false, advanced := [], stillPending := [], error := some e }, none)
  | LoadOutcome.ok s =>
    let processed := s.issues.map (reconcileEntry env)
    let newIssues := processed.map (·.1)
    let advanced := processed.filterMap
      (fun pe => if pe.2 = some true then some pe.1.1 else none)
    let stillPending := processed.filterMap
      (fun pe => if pe.2 = some false then some pe.1.1 else none)
    if advanced ≠ [] then
      match env.saveErr with
      | some e =>
        ({ success := false, advanced := [], stillPending := [], error := some e }, none)
      | none =>
        ({ success := true, advanced := advanced, stillPending := stillPending },
         some { s with issues := newIssues })
    else
      ({ success := true, advanced := advanced, stillPending := stillPending },
       some { s with issues := newIssues })

/-! ## Graceful shutdown manager (ShutdownManager, part of the tree as an
unnamed file) -/

/-- A registered cleanup task: its name and whether its promise resolves
(ok true) or rejects (ok false; the thrown message is abstracted away
since it only feeds the log line). -/
structure CleanupTask where
  name : String
  ok : Bool
deriving DecidableEq, Repr

/-- Observable events of gracefulShutdown, in the order they happen:
aborting the in-flight phase through the abort controller, running one
cleanup task (logged as succeeded or failed), and the final process exit
with its code. -/
inductive ShutdownEvent where
  | aborted
  | taskOk (name : String)
  | taskFailed (name : String)
  | exited (code : Nat)
deriving DecidableEq, Repr

/-- The fields of ShutdownManager that gracefulShutdown reads. -/
structure ShutdownState where
  cleanupTasks : List CleanupTask := []
  isShuttingDown : Bool := false
  hasAbortController : Bool := false
deriving DecidableEq, Repr

/-- registerCleanup: tasks are pushed at the end of the list. -/
def registerCleanup (s : ShutdownState) (name : String) (ok : Bool) : ShutdownState :=
  { s with cleanupTasks := s.cleanupTasks ++ [{ name := name, ok := ok }] }

/-- gracefulShutdown (ShutdownManager lines 153 to 198): a second signal
while already shutting down force exits with code 1; otherwise the abort
controller (when set) is triggered first, then the cleanup tasks run in
reverse registration order, a rejection being logged without stopping
the loop, and the process exits with code 0. Returns the event trace and
the updated manager state. -/
def gracefulShutdown (s : ShutdownState) : List ShutdownEvent × ShutdownState :=
  if s.isShuttingDown then ([ShutdownEvent.exited 1], s)
  else
    let abortEvents := if s.hasAbortController then [ShutdownEvent.aborted] else []
    let taskEvents := s.cleanupTasks.reverse.map
      (fun t => if t.ok then ShutdownEvent.taskOk t.name else ShutdownEvent.taskFailed t.name)
    (abortEvents ++ taskEvents ++ [ShutdownEvent.exited 0],
     { s with isShuttingDown := true })

/-! ## QA result cache

Modelled from the spec: the QACache class of src/lib/workflow/qa-cache.ts
is not in the source tree (only its test file and its CLI caller are), so
get and set are modelled from the spec sections on the QA Result Cache:
an entry is a hit iff its stored diffHash equals the currently computed
diffHash, its stored configHash equals the currently computed configHash
for that check kind, and elapsed time since cachedAt is below ttl; any
mismatch yields the most specific applicable missReason, checked in the
order not-found, expired, hash-mismatch. -/

/-- The fixed enumeration of check kinds, as exercised by the test file
and the cache CLI. -/
inductive CheckType where
  | typeSafety
  | security
  | build
  | tests
  | deletedTests
  | scope
deriving DecidableEq, Repr

/-- Payload of a cached verdict. The optional details blob never
influences cache control flow and is abstracted as a string. -/
structure CheckResultPayload where
  passed : Bool
  message : String
  details : Option String := none
deriving DecidableEq, Repr

/-- A cached check result entry: validity keys, creation instant,
time to live in milliseconds, and the verdict payload. -/
structure CachedCheckResult where
  checkType : CheckType
  diffHash : String
  configHash : String
  cachedAtMs : Nat
  ttl : Nat
  result : CheckResultPayload
deriving DecidableEq, Repr

/-- The check kind keyed cache document. -/
structure QACacheState where
  checks : CheckType → Option CachedCheckResult

/-- Reasons a get can miss, from most to least specific. -/
inductive MissReason where
  | notFound
  | expired
  | hashMismatch
deriving DecidableEq, Repr

/-- Answer of QACache.get. -/
structure CacheCheckStatus where
  hit : Bool
  result : Option CheckResultPayload := none
  isStale : Bool := false
  missReason : Option MissReason := none
deriving DecidableEq, Repr

namespace QACache

/-- Modelled from the spec: QACache.get. nowMs is the current instant,
curDiff the currently computed diff hash and curConfig the currently
computed per kind config hash. The miss reasons are produced in the
spec order: not-found when no entry exists, expired when the entry age
reached its ttl (the entry is then stale), hash-mismatch when either
stored hash differs from the currently computed one. -/
def get (st : QACacheState) (nowMs : Nat) (curDiff : String)
    (curConfig : CheckType → String) (ct : CheckType) : CacheCheckStatus :=
  match st.checks ct with
  | none => { hit := false, missReason := some MissReason.notFound }
  | some e =>
    if e.ttl ≤ nowMs - e.cachedAtMs then
      { hit := false, isStale := true, missReason := some MissReason.expired }
    else if e.diffHash ≠ curDiff ∨ e.configHash ≠ curConfig ct then
      { hit := false, missReason := some MissReason.hashMismatch }
    else
      { hit := true, result := some e.result }

/-- Modelled from the spec: QACache.set overwrites the entry for the
kind with the currently computed hashes, the current instant and the
given ttl, never partially updating any other entry. -/
def set (st : QACacheState) (nowMs : Nat) (curDiff : String)
    (curConfig : CheckType → String) (ct : CheckType)
    (payload : CheckResultPayload) (ttl : Nat) : QACacheState :=
  { checks := fun k =>
      if k = ct then
        some { checkType := ct, diffHash := curDiff, configHash := curConfig ct,
               cachedAtMs := nowMs, ttl := ttl, result := payload }
      else st.checks k }

end QACache

/-! ## Persistent state store save path

Modelled from the spec: the StateManager class of
src/lib/workflow/state-manager.ts is not in the source tree (only its
test file and its callers are), so saveState is modelled from the spec:
stamp lastUpdated, write the document to a temporary file in the same
directory, then rename it over the target path. Each concurrent save
owns its own temporary file; rename atomically installs the current
content of that temporary file as the target. The model below is a
small step system over an arbitrary interleaving of n concurrent saves. -/

/-- Content of one path of the directory: no file yet, a file some
writer has opened but not finished writing (a truncated or partial
document), or a completely written document. -/
inductive FileVal where
  | absent
  | writing (d : WorkflowState)
  | complete (d : WorkflowState)
deriving DecidableEq, Repr

/-- Stamping of lastUpdated performed by every save before writing. -/
def stampState (nowMs : Nat) (s : WorkflowState) : WorkflowState :=
  { s with lastUpdatedMs := nowMs }

/-- Shared filesystem state of n racing saveState calls: the target
path, the temporary file of each save, and the program counter of each
save (0 not started, 1 temp opened and partially written, 2 temp fully
written, 3 renamed over the target). -/
structure SaveSys (n : Nat) where
  target : FileVal
  temp : Fin n → FileVal
  pc : Fin n → Nat

/-- One step of one of the n saves: save i opens its temporary file and
begins writing its stamped document, finishes writing it, or atomically
renames its temporary file (whatever that file currently holds) over the
target path. docs i is the document save i was asked to persist and
times i the instant it stamps. -/
inductive SaveStep (n : Nat) (docs : Fin n → WorkflowState) (times : Fin n → Nat) :
    SaveSys n → SaveSys n → Prop where
  | beginWrite (s : SaveSys n) (i : Fin n) (h : s.pc i = 0) :
      SaveStep n docs times s
        { target := s.target,
          temp := Function.update s.temp i (FileVal.writing (stampState (times i) (docs i))),
          pc := Function.update s.pc i 1 }
  | endWrite (s : SaveSys n) (i : Fin n) (h : s.pc i = 1) :
      SaveStep n docs times s
        { target := s.target,
          temp := Function.update s.temp i (FileVal.complete (stampState (times i) (docs i))),
          pc := Function.update s.pc i 2 }
  | rename (s : SaveSys n) (i : Fin n) (h : s.pc i = 2) :
      SaveStep n docs times s
        { target := s.temp i,
          temp := Function.update s.temp i FileVal.absent,
          pc := Function.update s.pc i 3 }

/-- Initial filesystem: the target path holds its prior content t0 and
no temporary file exists. -/
def saveInit (n : Nat) (t0 : FileVal) : SaveSys n :=
  { target := t0, temp := fun _ => FileVal.absent, pc := fun _ => 0 }

/-- States reachable by interleaving the steps of the n saves. -/
def SaveReachable (n : Nat) (docs : Fin n → WorkflowState) (times : Fin n → Nat)
    (t0 : FileVal) (s : SaveSys n) : Prop :=
  Relation.ReflTransGen (SaveStep n docs times) (saveInit n t0) s

/-! ## Concrete fixtures used to instantiate the theorems -/

/-- A three phase configuration matching the default spec, exec, qa
chain, in fan-out mode. -/
def cfgABC : ExecutionConfig :=
  { phases := ["spec", "exec", "qa"], sequential := false, dryRun := false,
    phaseTimeoutS := 30 }

/-- The same chain in sequential mode. -/
def cfgSeq : ExecutionConfig :=
  { cfgABC with sequential := true }

/-- An outcome table where the exec phase of every issue fails with a
nonzero exit code and every other phase succeeds. -/
def execBFails : Nat → Phase → PhaseResult := fun _ p =>
  if p = "exec" then { phase := p, success := false, error := some "Exit code 1" }
  else { phase := p, success := true }

/-- An outcome table where every phase of every issue fails. -/
def execAllFail : Nat → Phase → PhaseResult := fun _ p =>
  { phase := p, success := false, error := some "Exit code 1" }

/-- An outcome table where every phase of every issue succeeds. -/
def execAllPass : Nat → Phase → PhaseResult := fun _ p =>
  { phase := p, success := true }

/-- An environment where the project is initialized and the claude CLI
responds. -/
def envReady : RunEnv := { manifestPresent := true, claudeAvailable := true }

/-- An environment where getManifest finds nothing. -/
def envNoManifest : RunEnv := { manifestPresent := false, claudeAvailable := true }

/-- A fresh shutdown manager holding an abort controller for the
in-flight phase and no cleanup task yet. -/
def shutdownInit : ShutdownState :=
  { cleanupTasks := [], isShuttingDown := false, hasAbortController := true }

/-- A collaborator environment where PR 7 is reported merged, every
other gh query fails (null), every git probe reports not merged, one
worktree is active, and saves succeed. -/
def envPR7Merged : CollabEnv :=
  { checkPRMergeStatus := fun p => if p = 7 then some PRMergeStatus.MERGED else none,
    isIssueMergedIntoMain := fun _ => false,
    activeWorktrees := ["/work/alive"],
    saveErr := none,
    nowMs := 1000000 }

/-- A ready_for_merge issue record linked to PR 7, with a live worktree. -/
def issueReady7 : IssueState :=
  { number := 4, title := "ready issue", status := IssueStatus.readyForMerge,
    worktree := some "/work/alive", pr := some 7, lastActivityMs := 500 }

/-- A ready_for_merge issue record whose PR query fails and whose branch
is not merged. -/
def issueReady9 : IssueState :=
  { number := 9, title := "pending issue", status := IssueStatus.readyForMerge,
    worktree := some "/work/alive", pr := some 9, lastActivityMs := 600 }

/-- An in_progress issue record whose worktree vanished while its PR is
open (gh reports nothing for PR 9). -/
def issueOrphanOpen : IssueState :=
  { number := 12, title := "orphan with open pr", status := IssueStatus.inProgress,
    worktree := some "/work/gone", pr := some 9, lastActivityMs := 700 }

/-- A state document holding the three fixture issues. -/
def stateDemo : WorkflowState :=
  { lastUpdatedMs := 0,
    issues := [(4, issueReady7), (9, issueReady9), (12, issueOrphanOpen)] }

/-- The fixture issue 4 record after reconciliation advanced it. -/
def issueMerged4 : IssueState :=
  { issueReady7 with status := IssueStatus.merged, lastActivityMs := 1000000 }

/-- The fixture document after one reconciliation pass under
envPR7Merged: issue 4 advanced to merged with stamped lastActivity. -/
def stateDemoAfter : WorkflowState :=
  { lastUpdatedMs := 0,
    issues := [(4, issueMerged4), (9, issueReady9), (12, issueOrphanOpen)] }

/-- The orphaned fixture issue after cleanup marked it abandoned. -/
def issueOrphanAbandoned : IssueState :=
  { issueOrphanOpen with status := IssueStatus.abandoned }

/-- The fixture document after one cleanup pass under envPR7Merged:
issue 12 lost its worktree while its PR is open, so it is marked
abandoned and retained. -/
def stateDemoCleaned : WorkflowState :=
  { lastUpdatedMs := 0,
    issues := [(4, issueReady7), (9, issueReady9), (12, issueOrphanAbandoned)] }

/-- Two racing saveState calls: the documents they persist and the
instants they stamp. -/
def saveDemoDocs : Fin 2 → WorkflowState :=
  fun i => { lastUpdatedMs := 0, issues := [(i.val, issueReady7)] }

/-- Stamp instants of the two racing saves. -/
def saveDemoTimes : Fin 2 → Nat := fun i => 2000 + i.val

/-- Constructor output of a beginWrite step, as a function. -/
def applyBegin (n : Nat) (docs : Fin n → WorkflowState) (times : Fin n → Nat)
    (s : SaveSys n) (i : Fin n) : SaveSys n :=
  { target := s.target,
    temp := Function.update s.temp i (FileVal.writing (stampState (times i) (docs i))),
    pc := Function.update s.pc i 1 }

/-- Constructor output of an endWrite step, as a function. -/
def applyEnd (n : Nat) (docs : Fin n → WorkflowState) (times : Fin n → Nat)
    (s : SaveSys n) (i : Fin n) : SaveSys n :=
  { target := s.target,
    temp := Function.update s.temp i (FileVal.complete (stampState (times i) (docs i))),
    pc := Function.update s.pc i 2 }

/-- Constructor output of a rename step, as a function. -/
def applyRename (n : Nat) (s : SaveSys n) (i : Fin n) : SaveSys n :=
  { target := s.temp i,
    temp := Function.update s.temp i FileVal.absent,
    pc := Function.update s.pc i 3 }

/-- Final filesystem state of a concrete interleaving of the two demo
saves: both begin, both finish writing, save 1 renames, then save 0
renames last. -/
def saveDemoFinal : SaveSys 2 :=
  applyRename 2
    (applyRename 2
      (applyEnd 2 saveDemoDocs saveDemoTimes
        (applyEnd 2 saveDemoDocs saveDemoTimes
          (applyBegin 2 saveDemoDocs saveDemoTimes
            (applyBegin 2 saveDemoDocs saveDemoTimes (saveInit 2 FileVal.absent) 0) 1)
          0) 1) 1) 0

/-- A variant of execBFails that differs only on the qa phase, used to
show the engine never consults the outcome of the phase after the
failure. -/
def execBFailsAlt : Nat → Phase → PhaseResult := fun n p =>
  if p = "qa" then { phase := p, success := false, error := some "Exit code 2" }
  else execBFails n p

/-- An outcome table where every phase of issue 2 fails and every phase
of every other issue succeeds. -/
def execIssue2Fails : Nat → Phase → PhaseResult := fun n p =>
  if n = 2 then { phase := p, success := false, error := some "Exit code 1" }
  else { phase := p, success := true }

/-- An empty cache document. -/
def qaEmpty : QACacheState := { checks := fun _ => none }

/-- Fixture current hashes for the cache theorems. -/
def curDiffDemo : String := "a1b2c3d4e5f60718"

/-- Fixture per kind config hashes for the cache theorems. -/
def curConfigDemo : CheckType → String := fun _ => "0f1e2d3c4b5a6978"

/-! ## Theorems -/

/-- Helper: no code path of executePhase ever sends SIGKILL. -/
theorem executePhase_no_sigkill (phase : Phase) (cfg : ExecutionConfig)
    (event : Option (Nat × ProcEvent)) :
    Signal.sigkill ∉ (executePhase phase cfg event).2 := by
  rcases event with _ | ⟨t, ev⟩
  · unfold executePhase
    split_ifs <;> simp
  · cases ev <;> unfold executePhase <;> dsimp only <;> split_ifs <;> simp

/-- C1: for every issue and ordered phase list [A, B, C] where A
succeeds and B fails, the engine records exactly [A success, B failure],
never consults the outcome of C, reports the issue failed, and in
fan-out mode a failing issue does not stop the other issues of the
batch. -/
theorem fail_fast_per_issue (A B C : Phase) (cfg : ExecutionConfig)
    (exec : Nat → Phase → PhaseResult) (i : Nat)
    (hphases : cfg.phases = [A, B, C])
    (hA : (exec i A).success = true) (hB : (exec i B).success = false) :
    (runIssueWithLogging i cfg exec).phaseResults = [exec i A, exec i B] ∧
    (runIssueWithLogging i cfg exec).success = false ∧
    (∀ g : Nat → Phase → PhaseResult, g i A = exec i A → g i B = exec i B →
      runIssueWithLogging i cfg g = runIssueWithLogging i cfg exec) ∧
    (cfg.sequential = false → ∀ issues : List Nat,
      (runIssues cfg issues exec).map (·.issueNumber) = issues) := by
  refine ⟨?_, ?_, ?_, ?_⟩
  · simp [runIssueWithLogging, hphases, runPhases, hA, hB]
  · simp [runIssueWithLogging, hphases, runPhases, hA, hB]
  · intro g hgA hgB
    simp [runIssueWithLogging, hphases, runPhases, hgA, hgB, hA, hB]
  · intro hseq issues
    simp only [runIssues, hseq, Bool.false_eq_true, if_false]
    induction issues with
    | nil => rfl
    | cons a tl ih =>
      simp only [runIssueWithLogging] at ih
      simp only [List.map_cons, runIssueWithLogging, ih]

/-- C1 witness: instantiation on the default spec, exec, qa chain with
exec failing; swapping the qa outcome changes nothing, and the fan-out
batch over issues 1 and 2 still covers both. -/
theorem fail_fast_per_issue_witness :
    (runIssueWithLogging 1 cfgABC execBFails).phaseResults
        = [execBFails 1 "spec", execBFails 1 "exec"] ∧
    (runIssueWithLogging 1 cfgABC execBFails).success = false ∧
    runIssueWithLogging 1 cfgABC execBFailsAlt = runIssueWithLogging 1 cfgABC execBFails ∧
    (runIssues cfgABC [1, 2] execBFails).map (·.issueNumber) = [1, 2] := by
  have h := fail_fast_per_issue "spec" "exec" "qa" cfgABC execBFails 1 rfl
    (by decide) (by decide)
  exact ⟨h.1, h.2.1, h.2.2.1 execBFailsAlt (by decide) (by decide), h.2.2.2 rfl [1, 2]⟩

/-- C6: after registering cleanups X, Y, Z in that order, shutdown first
aborts the in-flight phase through the cancellation handle, then runs
the callbacks in LIFO order Z, Y, X; the rejection of Y is logged as a
task failure and X still runs, after which the process exits 0. -/
theorem shutdown_lifo_under_failure (s0 : ShutdownState) (X Y Z : String)
    (okX okZ : Bool)
    (htasks : s0.cleanupTasks = []) (hsd : s0.isShuttingDown = false)
    (hab : s0.hasAbortController = true) :
    (gracefulShutdown
        (registerCleanup (registerCleanup (registerCleanup s0 X okX) Y false) Z okZ)).1
      = [ShutdownEvent.aborted,
         (if okZ then ShutdownEvent.taskOk Z else ShutdownEvent.taskFailed Z),
         ShutdownEvent.taskFailed Y,
         (if okX then ShutdownEvent.taskOk X else ShutdownEvent.taskFailed X),
         ShutdownEvent.exited 0] := by
  simp [gracefulShutdown, registerCleanup, htasks, hsd, hab]

/-- C6 witness: instantiation on a fresh manager with succeeding X and Z. -/
theorem shutdown_lifo_under_failure_witness :
    (gracefulShutdown
        (registerCleanup (registerCleanup (registerCleanup shutdownInit "X" true) "Y" false)
          "Z" true)).1
      = [ShutdownEvent.aborted,
         (if true then ShutdownEvent.taskOk "Z" else ShutdownEvent.taskFailed "Z"),
         ShutdownEvent.taskFailed "Y",
         (if true then ShutdownEvent.taskOk "X" else ShutdownEvent.taskFailed "X"),
         ShutdownEvent.exited 0] :=
  shutdown_lifo_under_failure shutdownInit "X" "Y" "Z" true true rfl rfl rfl

/-- C7 counterexample: with a 30 second timeout and a child that ignores
SIGTERM and never exits, the engine sends exactly one SIGTERM and never
escalates to a forced kill (SIGKILL); the claimed escalation does not
exist in the code. -/
theorem timeout_no_forced_kill_counterexample :
    (executePhase "qa" cfgABC none).2 = [Signal.sigterm] ∧
    Signal.sigkill ∉ (executePhase "qa" cfgABC none).2 ∧
    Signal.sigkill ∉ (executePhase "qa" cfgABC (some (2000000, ProcEvent.close none))).2 :=
  ⟨by decide, by decide,
   executePhase_no_sigkill "qa" cfgABC (some (2000000, ProcEvent.close none))⟩

/-- C7 amended: when a phase exceeds its configured wall-clock timeout
the engine terminates the spawned process with SIGTERM (never escalating
to SIGKILL, whatever the child does) and, once the child closes, records
the phase as a failure whose reason is the timeout message. -/
theorem timeout_records_failure (phase : Phase) (cfg : ExecutionConfig)
    (t : Nat) (code : Option Int)
    (hdry : cfg.dryRun = false) (ht : cfg.phaseTimeoutS * 1000 ≤ t) :
    executePhase phase cfg (some (t, ProcEvent.close code))
      = (some { phase := phase, success := false,
                error := some ("Timeout after " ++ toString cfg.phaseTimeoutS ++ "s") },
         [Signal.sigterm]) ∧
    (∀ event, Signal.sigkill ∉ (executePhase phase cfg event).2) := by
  constructor
  · simp [executePhase, hdry, ht]
  · exact fun event => executePhase_no_sigkill phase cfg event

/-- C7 amended witness: a child closing two million milliseconds in,
well past the 30 second timeout. -/
theorem timeout_records_failure_witness :
    cfgABC.dryRun = false ∧ cfgABC.phaseTimeoutS * 1000 ≤ 2000000 ∧
    executePhase "qa" cfgABC (some (2000000, ProcEvent.close none))
      = (some { phase := "qa", success := false,
                error := some ("Timeout after " ++ toString cfgABC.phaseTimeoutS ++ "s") },
         [Signal.sigterm]) ∧
    Signal.sigkill ∉ (executePhase "qa" cfgABC none).2 :=
  ⟨rfl, by decide,
   (timeout_records_failure "qa" cfgABC 2000000 none rfl (by decide)).1,
   (timeout_records_failure "qa" cfgABC 2000000 none rfl (by decide)).2 none⟩

/-- Helper: every recorded result of the execution loop is the outcome
of runIssueWithLogging on its own issue number, and that number was
requested. -/
theorem mem_runIssues (cfg : ExecutionConfig) (issues : List Nat)
    (exec : Nat → Phase → PhaseResult) (r : IssueResult)
    (hr : r ∈ runIssues cfg issues exec) :
    r = runIssueWithLogging r.issueNumber cfg exec ∧ r.issueNumber ∈ issues := by
  unfold runIssues at hr
  split at hr
  · induction issues with
    | nil => simp [runIssuesSequential] at hr
    | cons i tl ih =>
      rw [runIssuesSequential] at hr
      by_cases hs : (runIssueWithLogging i cfg exec).success
      · rw [if_pos hs] at hr
        rcases List.mem_cons.mp hr with h | h
        · subst h; exact ⟨rfl, by simp [runIssueWithLogging]⟩
        · obtain ⟨h1, h2⟩ := ih h
          exact ⟨h1, List.mem_cons_of_mem _ h2⟩
      · rw [if_neg hs] at hr
        rcases List.mem_singleton.mp hr with h
        subst h; exact ⟨rfl, by simp [runIssueWithLogging]⟩
  · obtain ⟨i, hi, hmap⟩ := List.mem_map.mp hr
    subst hmap
    exact ⟨rfl, by simpa [runIssueWithLogging] using hi⟩

/-- Helper: when every recorded result succeeds, the sequential loop
never breaks, so it covers the whole queue. -/
theorem runIssuesSequential_eq_map (issues : List Nat) (cfg : ExecutionConfig)
    (exec : Nat → Phase → PhaseResult)
    (h : ∀ r ∈ runIssuesSequential issues cfg exec, r.success = true) :
    runIssuesSequential issues cfg exec
      = issues.map (fun i => runIssueWithLogging i cfg exec) := by
  induction issues with
  | nil => rfl
  | cons i tl ih =>
    by_cases hs : (runIssueWithLogging i cfg exec).success
    · rw [runIssuesSequential, if_pos hs] at h ⊢
      rw [List.map_cons, ih (fun r hr => h r (List.mem_cons_of_mem _ hr))]
    · exfalso
      apply hs
      apply h (runIssueWithLogging i cfg exec)
      rw [runIssuesSequential, if_neg hs]
      exact List.mem_singleton.mpr rfl

/-- C8: in sequential mode the engine completes one issue chain at a
time and abandons the remaining queue right after the first failed
issue; in fan-out mode it iterates every issue without aborting the
batch; and inside any one issue the recorded phases are always an
in-order prefix of the configured phase list. -/
theorem execution_modes (cfg : ExecutionConfig) (exec : Nat → Phase → PhaseResult) :
    (∀ (xs : List Nat) (y : Nat) (ys : List Nat), cfg.sequential = true →
      (∀ x ∈ xs, (runIssueWithLogging x cfg exec).success = true) →
      (runIssueWithLogging y cfg exec).success = false →
      runIssues cfg (xs ++ y :: ys) exec
        = xs.map (fun x => runIssueWithLogging x cfg exec)
          ++ [runIssueWithLogging y cfg exec]) ∧
    (cfg.sequential = false → ∀ issues : List Nat,
      runIssues cfg issues exec = issues.map (fun i => runIssueWithLogging i cfg exec)) ∧
    (∀ (phases : List Phase) (g : Phase → PhaseResult),
      ∃ k, runPhases phases g = (phases.take k).map g) := by
  refine ⟨?_, ?_, ?_⟩
  · intro xs y ys hseq hok hfail
    unfold runIssues
    rw [if_pos hseq]
    induction xs with
    | nil =>
      simp only [List.nil_append, List.map_nil]
      rw [runIssuesSequential, if_neg (by simp [hfail])]
    | cons x tl ih =>
      have hx := hok x (List.mem_cons_self x tl)
      simp only [List.cons_append, List.map_cons]
      rw [runIssuesSequential, if_pos hx,
        ih (fun z hz => hok z (List.mem_cons_of_mem _ hz))]
  · intro hseq issues
    unfold runIssues
    rw [if_neg (by simp [hseq])]
  · intro phases g
    induction phases with
    | nil => exact ⟨0, rfl⟩
    | cons p tl ih =>
      by_cases hs : (g p).success
      · obtain ⟨k, hk⟩ := ih
        exact ⟨k + 1, by rw [runPhases, if_pos hs, hk]; rfl⟩
      · exact ⟨1, by rw [runPhases, if_neg hs]; rfl⟩

/-- C8 witness: sequential run over issues 1, 2, 3 where issue 2 fails
stops after issue 2; the fan-out run covers both issues; and the phase
records of the failing issue are an in-order prefix of the chain. -/
theorem execution_modes_witness :
    cfgSeq.sequential = true ∧
    runIssues cfgSeq ([1] ++ 2 :: [3]) execIssue2Fails
      = [1].map (fun x => runIssueWithLogging x cfgSeq execIssue2Fails)
        ++ [runIssueWithLogging 2 cfgSeq execIssue2Fails] ∧
    runIssues cfgABC [1, 2] execIssue2Fails
      = [1, 2].map (fun i => runIssueWithLogging i cfgABC execIssue2Fails) ∧
    runPhases cfgABC.phases (execIssue2Fails 2)
      = (cfgABC.phases.take 1).map (execIssue2Fails 2) :=
  ⟨rfl,
   (execution_modes cfgSeq execIssue2Fails).1 [1] 2 [3] rfl (by decide) (by decide),
   (execution_modes cfgABC execIssue2Fails).2.1 rfl [1, 2],
   by decide⟩

/-- C9 counterexample: with one requested issue but no manifest on disk,
runCommand returns early before executing anything and the process exits
0 even though the requested issue chain never completed, so exit code 0
does not imply that every requested issue succeeded. -/
theorem run_exit_code_counterexample :
    runCommandExitCode envNoManifest cfgABC [1] execAllFail = 0 ∧
    ¬ allRequestedSucceeded [1] (runCommandResults envNoManifest cfgABC [1] execAllFail) := by
  constructor
  · rfl
  · decide

/-- C9 amended: a dry run always exits 0; every early-return path
(missing manifest, missing CLI, no valid issue numbers) also exits 0
without executing any issue; and once the run proceeds past those
configuration checks outside dry run, the exit code is 0 iff every
requested issue chain completed successfully. -/
theorem run_exit_code_spec (env : RunEnv) (cfg : ExecutionConfig)
    (issues : List Nat) (exec : Nat → Phase → PhaseResult) :
    (cfg.dryRun = true → runCommandExitCode env cfg issues exec = 0) ∧
    (runCommandResults env cfg issues exec = none →
      runCommandExitCode env cfg issues exec = 0) ∧
    (cfg.dryRun = false → env.manifestPresent = true → env.claudeAvailable = true →
      issues ≠ [] →
      (runCommandExitCode env cfg issues exec = 0 ↔
        allRequestedSucceeded issues (runCommandResults env cfg issues exec))) := by
  refine ⟨?_, ?_, ?_⟩
  · intro hdry
    unfold runCommandExitCode
    cases h : runCommandResults env cfg issues exec with
    | none => rfl
    | some results => simp [hdry]
  · intro h
    unfold runCommandExitCode
    rw [h]
  · intro hdry hman hcli hne
    have hres : runCommandResults env cfg issues exec
        = some (runIssues cfg issues exec) := by
      unfold runCommandResults
      rw [if_neg (by simp [hman]), if_neg (by simp [hcli]),
        if_neg (by simpa [List.isEmpty_iff] using hne)]
    have hall : (∀ r ∈ runIssues cfg issues exec, r.success = true) ↔
        allRequestedSucceeded issues (runCommandResults env cfg issues exec) := by
      rw [hres]
      constructor
      · intro hok i hi
        have hmapeq : runIssues cfg issues exec
            = issues.map (fun i => runIssueWithLogging i cfg exec) := by
          unfold runIssues
          split
          · apply runIssuesSequential_eq_map
            intro r hr
            apply hok
            unfold runIssues
            split
            · exact hr
            · simp_all
          · rfl
        refine ⟨runIssueWithLogging i cfg exec, ?_, by simp [runIssueWithLogging], ?_⟩
        · rw [Option.getD_some, hmapeq]
          exact List.mem_map_of_mem _ hi
        · apply hok
          rw [hmapeq]
          exact List.mem_map_of_mem _ hi
      · intro hreq r hr
        obtain ⟨heq, hmem⟩ := mem_runIssues cfg issues exec r hr
        obtain ⟨r2, hr2, hnum, hsucc⟩ := hreq r.issueNumber hmem
        rw [Option.getD_some] at hr2
        obtain ⟨heq2, _⟩ := mem_runIssues cfg issues exec r2 hr2
        have : r2 = r := by rw [heq2, hnum, ← heq]
        rw [← this]
        exact hsucc
    rw [← hall]
    unfold runCommandExitCode
    rw [hres]
    constructor
    · intro h0 r hr
      by_contra hf
      have hmem : r ∈ (runIssues cfg issues exec).filter (fun r => ¬r.success) := by
        simp [List.mem_filter, hr, hf]
      have : 0 < ((runIssues cfg issues exec).filter (fun r => ¬r.success)).length :=
        List.length_pos.mpr (by intro hnil; rw [hnil] at hmem; exact List.not_mem_nil r hmem)
      simp only [this, hdry] at h0
      simp at h0
    · intro hok
      have hfil : (runIssues cfg issues exec).filter (fun r => !r.success) = [] := by
        rw [List.filter_eq_nil_iff]
        intro r hr
        simp [hok r hr]
      simp [hfil]

/-- C9 amended witness: an all-pass run over issues 1 and 2 past the
configuration checks. -/
theorem run_exit_code_spec_witness :
    cfgABC.dryRun = false ∧ envReady.manifestPresent = true ∧
    envReady.claudeAvailable = true ∧ ([1, 2] : List Nat) ≠ [] ∧
    (runCommandExitCode envReady cfgABC [1, 2] execAllPass = 0 ↔
      allRequestedSucceeded [1, 2] (runCommandResults envReady cfgABC [1, 2] execAllPass)) :=
  ⟨rfl, rfl, rfl, by decide,
   (run_exit_code_spec envReady cfgABC [1, 2] execAllPass).2.2 rfl rfl rfl (by decide)⟩

/-- C3: get hits iff a stored entry exists whose diffHash and configHash
equal the currently computed ones and whose age is below its ttl; misses
carry the most specific reason in the order not-found, expired,
hash-mismatch; and an entry stored by set is a hit under the same
current hashes exactly while its ttl has not elapsed. -/
theorem qa_cache_get_spec (st : QACacheState) (nowMs : Nat) (curDiff : String)
    (curConfig : CheckType → String) (ct : CheckType) :
    ((QACache.get st nowMs curDiff curConfig ct).hit = true ↔
      ∃ e, st.checks ct = some e ∧ e.diffHash = curDiff ∧
        e.configHash = curConfig ct ∧ nowMs - e.cachedAtMs < e.ttl) ∧
    (st.checks ct = none →
      QACache.get st nowMs curDiff curConfig ct
        = { hit := false, missReason := some MissReason.notFound }) ∧
    (∀ e, st.checks ct = some e → e.ttl ≤ nowMs - e.cachedAtMs →
      QACache.get st nowMs curDiff curConfig ct
        = { hit := false, isStale := true, missReason := some MissReason.expired }) ∧
    (∀ e, st.checks ct = some e → nowMs - e.cachedAtMs < e.ttl →
      (e.diffHash ≠ curDiff ∨ e.configHash ≠ curConfig ct) →
      QACache.get st nowMs curDiff curConfig ct
        = { hit := false, missReason := some MissReason.hashMismatch }) ∧
    (∀ (payload : CheckResultPayload) (ttl now0 : Nat),
      QACache.get (QACache.set st now0 curDiff curConfig ct payload ttl)
          nowMs curDiff curConfig ct
        = if nowMs - now0 < ttl then { hit := true, result := some payload }
          else { hit := false, isStale := true, missReason := some MissReason.expired }) := by
  refine ⟨?_, ?_, ?_, ?_, ?_⟩
  · cases h : st.checks ct with
    | none => simp [QACache.get, h]
    | some e =>
      simp only [QACache.get, h]
      by_cases hage : e.ttl ≤ nowMs - e.cachedAtMs
      · rw [if_pos hage]
        constructor
        · intro hfalse; exact absurd hfalse (by simp)
        · rintro ⟨e2, he2, _, _, hlt⟩
          rw [Option.some_inj] at he2
          subst he2
          exact absurd hage (Nat.not_le.mpr hlt)
      · rw [if_neg hage]
        by_cases hmm : e.diffHash ≠ curDiff ∨ e.configHash ≠ curConfig ct
        · rw [if_pos hmm]
          constructor
          · intro hfalse; exact absurd hfalse (by simp)
          · rintro ⟨e2, he2, hd, hc, _⟩
            rw [Option.some_inj] at he2
            subst he2
            rcases hmm with hm | hm <;> exact absurd (by assumption) hm
        · rw [if_neg hmm]
          push_neg at hmm
          simp only [true_iff]
          exact ⟨e, rfl, hmm.1, hmm.2, Nat.lt_of_not_le hage⟩
  · intro h; simp [QACache.get, h]
  · intro e he hage
    simp only [QACache.get, he]
    rw [if_pos hage]
  · intro e he hlt hmm
    simp only [QACache.get, he]
    rw [if_neg (Nat.not_le.mpr hlt), if_pos hmm]
  · intro payload ttl now0
    have hset : (QACache.set st now0 curDiff curConfig ct payload ttl).checks ct
        = some { checkType := ct, diffHash := curDiff, configHash := curConfig ct,
                 cachedAtMs := now0, ttl := ttl, result := payload } := by
      simp [QACache.set]
    simp only [QACache.get, hset]
    by_cases hage : nowMs - now0 < ttl
    · rw [if_neg (by simpa using Nat.not_le.mpr hage), if_neg (by simp), if_pos hage]
    · rw [if_pos (by simpa using Nat.not_lt.mp hage), if_neg hage]

/-- C3 witness: an entry set at instant 1000 with ttl 3600000 is a hit
at instant 2000 under the same hashes, and the fresh cache misses with
reason not-found. -/
theorem qa_cache_get_spec_witness :
    qaEmpty.checks CheckType.typeSafety = none ∧
    QACache.get qaEmpty 2000 curDiffDemo curConfigDemo CheckType.typeSafety
      = { hit := false, missReason := some MissReason.notFound } ∧
    QACache.get (QACache.set qaEmpty 1000 curDiffDemo curConfigDemo
          CheckType.typeSafety { passed := true, message := "ok" } 3600000)
        2000 curDiffDemo curConfigDemo CheckType.typeSafety
      = { hit := true, result := some { passed := true, message := "ok" } } := by
  have h := qa_cache_get_spec qaEmpty 2000 curDiffDemo curConfigDemo CheckType.typeSafety
  refine ⟨rfl, h.2.1 rfl, ?_⟩
  have h5 := h.2.2.2.2 { passed := true, message := "ok" } 3600000 1000
  rw [h5, if_pos (by decide)]

/-- C10: for every option and collaborator environment, both cleanup and
reconciliation are total functions of their inputs: a missing state file
yields success with empty issue lists, a load exception is caught and
rendered as the error string of a failing result, and every possible
result is either a success without error or a failure carrying an error
string and empty lists. -/
theorem cleanup_reconcile_never_throw (opts : CleanupOptions) (env : CollabEnv) :
    (cleanupStaleEntries opts env LoadOutcome.missing
      = ({ success := true, removed := [], orphaned := [], merged := [] }, none)) ∧
    (reconcileStateAtStartup env LoadOutcome.missing
      = ({ success := true, advanced := [], stillPending := [] }, none)) ∧
    (∀ e, cleanupStaleEntries opts env (LoadOutcome.raised e)
      = ({ success := false, removed := [], orphaned := [], merged := [],
           error := some e }, none)) ∧
    (∀ e, reconcileStateAtStartup env (LoadOutcome.raised e)
      = ({ success := false, advanced := [], stillPending := [],
           error := some e }, none)) ∧
    (∀ load, ((cleanupStaleEntries opts env load).1.success = true ∧
        (cleanupStaleEntries opts env load).1.error = none) ∨
      ((cleanupStaleEntries opts env load).1.success = false ∧
        (cleanupStaleEntries opts env load).1.error ≠ none ∧
        (cleanupStaleEntries opts env load).1.removed = [] ∧
        (cleanupStaleEntries opts env load).1.orphaned = [] ∧
        (cleanupStaleEntries opts env load).1.merged = [])) ∧
    (∀ load, ((reconcileStateAtStartup env load).1.success = true ∧
        (reconcileStateAtStartup env load).1.error = none) ∨
      ((reconcileStateAtStartup env load).1.success = false ∧
        (reconcileStateAtStartup env load).1.error ≠ none ∧
        (reconcileStateAtStartup env load).1.advanced = [] ∧
        (reconcileStateAtStartup env load).1.stillPending = [])) := by
  refine ⟨rfl, rfl, fun e => rfl, fun e => rfl, ?_, ?_⟩
  · intro load
    cases load with
    | missing => left; exact ⟨rfl, rfl⟩
    | raised e => right; simp [cleanupStaleEntries]
    | ok s =>
      rw [cleanupStaleEntries]
      split
      · cases h : env.saveErr with
        | none => left; exact ⟨rfl, rfl⟩
        | some e => right; simp
      · left; exact ⟨rfl, rfl⟩
  · intro load
    cases load with
    | missing => left; exact ⟨rfl, rfl⟩
    | raised e => right; simp [reconcileStateAtStartup]
    | ok s =>
      rw [reconcileStateAtStartup]
      split
      · cases h : env.saveErr with
        | none => left; exact ⟨rfl, rfl⟩
        | some e => right; simp
      · left; exact ⟨rfl, rfl⟩

/-- C10 witness: instantiation on default options and the fixture
environment, for a missing state file and for a load exception. -/
theorem cleanup_reconcile_never_throw_witness :
    cleanupStaleEntries {} envPR7Merged LoadOutcome.missing
      = ({ success := true, removed := [], orphaned := [], merged := [] }, none) ∧
    reconcileStateAtStartup envPR7Merged LoadOutcome.missing
      = ({ success := true, advanced := [], stillPending := [] }, none) ∧
    cleanupStaleEntries {} envPR7Merged (LoadOutcome.raised "ENOENT")
      = ({ success := false, removed := [], orphaned := [], merged := [],
           error := some "ENOENT" }, none) ∧
    reconcileStateAtStartup envPR7Merged (LoadOutcome.raised "ENOENT")
      = ({ success := false, advanced := [], stillPending := [],
           error := some "ENOENT" }, none) :=
  ⟨(cleanup_reconcile_never_throw {} envPR7Merged).1,
   (cleanup_reconcile_never_throw {} envPR7Merged).2.1,
   (cleanup_reconcile_never_throw {} envPR7Merged).2.2.1 "ENOENT",
   (cleanup_reconcile_never_throw {} envPR7Merged).2.2.2.1 "ENOENT"⟩

/-- Helper: an issue that is not ready_for_merge is skipped untouched. -/
theorem reconcileEntry_skip (env : CollabEnv) (n : Nat) (st : IssueState)
    (hst : st.status ≠ IssueStatus.readyForMerge) :
    reconcileEntry env (n, st) = ((n, st), none) := by
  rw [reconcileEntry, if_pos (by simp [hst])]

/-- Helper: a ready_for_merge issue is advanced exactly when the merge
evidence oracle answers positively. -/
theorem reconcileEntry_ready (env : CollabEnv) (n : Nat) (st : IssueState)
    (hst : st.status = IssueStatus.readyForMerge) :
    reconcileEntry env (n, st)
      = if prOrBranchMerged env n st = true
        then ((n, ({ st with status := IssueStatus.merged, lastActivityMs := env.nowMs })),
          some true)
        else ((n, st), some false) := by
  rw [reconcileEntry, if_neg (by simp [hst])]
  rfl

/-- Helper: the three possible shapes of one reconciliation verdict:
skipped entries and still-pending entries are returned untouched. -/
theorem reconcileEntry_cases (env : CollabEnv) (e : Nat × IssueState) :
    ((reconcileEntry env e).2 = none ∧ (reconcileEntry env e).1 = e ∧
      e.2.status ≠ IssueStatus.readyForMerge) ∨
    ((reconcileEntry env e).2 = some false ∧ (reconcileEntry env e).1 = e ∧
      e.2.status = IssueStatus.readyForMerge) ∨
    ((reconcileEntry env e).2 = some true ∧
      (reconcileEntry env e).1.2.status = IssueStatus.merged) := by
  obtain ⟨n, st⟩ := e
  by_cases hst : st.status = IssueStatus.readyForMerge
  · rw [reconcileEntry_ready env n st hst]
    by_cases hm : prOrBranchMerged env n st = true
    · rw [if_pos hm]; right; right; exact ⟨rfl, rfl⟩
    · rw [if_neg hm]; right; left; exact ⟨rfl, rfl, hst⟩
  · rw [reconcileEntry_skip env n st hst]
    left
    exact ⟨rfl, rfl, hst⟩

/-- Helper: reconciling an already reconciled entry under oracles that
agree with the first pass changes nothing: the verdict is some false
exactly when the first verdict was, and the entry stays as the first
pass left it. -/
theorem reconcileEntry_stable (env env2 : CollabEnv)
    (hpr : env2.checkPRMergeStatus = env.checkPRMergeStatus)
    (hbm : env2.isIssueMergedIntoMain = env.isIssueMergedIntoMain)
    (e : Nat × IssueState) :
    reconcileEntry env2 (reconcileEntry env e).1
      = ((reconcileEntry env e).1,
         if (reconcileEntry env e).2 = some false then some false else none) := by
  obtain ⟨n, st⟩ := e
  have horacle : ∀ m u, prOrBranchMerged env2 m u = prOrBranchMerged env m u := by
    intro m u
    rw [prOrBranchMerged, prOrBranchMerged, hpr, hbm]
  by_cases hst : st.status = IssueStatus.readyForMerge
  · rw [reconcileEntry_ready env n st hst]
    by_cases hm : prOrBranchMerged env n st = true
    · rw [if_pos hm]
      dsimp only
      rw [reconcileEntry_skip env2 n _ (by simp)]
      simp
    · rw [if_neg hm]
      dsimp only
      rw [reconcileEntry_ready env2 n st hst, horacle, if_neg hm]
      simp
  · rw [reconcileEntry_skip env n st hst]
    dsimp only
    rw [reconcileEntry_skip env2 n st hst]
    simp

/-- Helper: the full shape of a reconciliation run over a loaded state
when saving does not raise: success, the advanced and still pending
issue numbers, and the resulting document. -/
theorem reconcileStateAtStartup_ok (env : CollabEnv) (s : WorkflowState)
    (hsave : env.saveErr = none) :
    reconcileStateAtStartup env (LoadOutcome.ok s)
      = ({ success := true,
           advanced := s.issues.filterMap (fun e =>
             if (reconcileEntry env e).2 = some true
             then some (reconcileEntry env e).1.1 else none),
           stillPending := s.issues.filterMap (fun e =>
             if (reconcileEntry env e).2 = some false
             then some (reconcileEntry env e).1.1 else none) },
         some { s with issues := s.issues.map (fun e => (reconcileEntry env e).1) }) := by
  rw [reconcileStateAtStartup]
  simp only [List.filterMap_map, List.map_map]
  split
  · rw [hsave]
    rfl
  · rfl

/-- C4: reconciliation examines only ready_for_merge issues, promotes an
issue to merged (stamping lastActivity) only on a merged PR report or a
verifiably merged branch, treats failed collaborator queries as not yet
merged while still succeeding, and running it a second time under
unchanged oracles returns the same document with nothing advanced. -/
theorem reconcile_spec (env env2 : CollabEnv) (s : WorkflowState)
    (hpr : env2.checkPRMergeStatus = env.checkPRMergeStatus)
    (hbm : env2.isIssueMergedIntoMain = env.isIssueMergedIntoMain)
    (hsave : env.saveErr = none) (hsave2 : env2.saveErr = none) :
    (∀ s1, (reconcileStateAtStartup env (LoadOutcome.ok s)).2 = some s1 →
      reconcileStateAtStartup env2 (LoadOutcome.ok s1)
        = ({ success := true, advanced := [],
             stillPending := (reconcileStateAtStartup env (LoadOutcome.ok s)).1.stillPending },
           some s1)) ∧
    (∀ n st, st.status ≠ IssueStatus.readyForMerge →
      reconcileEntry env (n, st) = ((n, st), none)) ∧
    (∀ n st, (reconcileEntry env (n, st)).2 = some true →
      st.status = IssueStatus.readyForMerge ∧
      ((∃ p, st.pr = some p ∧ env.checkPRMergeStatus p = some PRMergeStatus.MERGED) ∨
        env.isIssueMergedIntoMain n = true) ∧
      (reconcileEntry env (n, st)).1
        = (n, ({ st with status := IssueStatus.merged, lastActivityMs := env.nowMs }))) ∧
    (∀ n st, st.status = IssueStatus.readyForMerge →
      (∀ p, st.pr = some p → ¬env.checkPRMergeStatus p = some PRMergeStatus.MERGED) →
      env.isIssueMergedIntoMain n = false →
      reconcileEntry env (n, st) = ((n, st), some false)) ∧
    (reconcileStateAtStartup env (LoadOutcome.ok s)).1.success = true := by
  refine ⟨?_, ?_, ?_, ?_, ?_⟩
  · intro s1 hs1
    rw [reconcileStateAtStartup_ok env s hsave] at hs1
    dsimp only at hs1
    have hs1eq : s1 = { s with issues := s.issues.map (fun e => (reconcileEntry env e).1) } :=
      (Option.some_inj.mp hs1).symm
    subst hs1eq
    rw [reconcileStateAtStartup_ok env2 _ hsave2, reconcileStateAtStartup_ok env s hsave]
    dsimp only
    rw [List.filterMap_map, List.filterMap_map, List.map_map]
    have hadv : s.issues.filterMap ((fun e =>
          if (reconcileEntry env2 e).2 = some true
          then some (reconcileEntry env2 e).1.1 else none)
            ∘ fun e => (reconcileEntry env e).1) = [] := by
      apply List.filterMap_eq_nil_iff.mpr
      intro e _
      dsimp only [Function.comp]
      rw [reconcileEntry_stable env env2 hpr hbm e]
      dsimp only
      rcases hv : (reconcileEntry env e).2 with _ | b
      · simp
      · cases b <;> simp
    rw [hadv]
    have hpend : s.issues.filterMap ((fun e =>
          if (reconcileEntry env2 e).2 = some false
          then some (reconcileEntry env2 e).1.1 else none)
            ∘ fun e => (reconcileEntry env e).1)
        = s.issues.filterMap (fun e =>
          if (reconcileEntry env e).2 = some false
          then some (reconcileEntry env e).1.1 else none) := by
      apply List.filterMap_congr
      intro e _
      dsimp only [Function.comp]
      rw [reconcileEntry_stable env env2 hpr hbm e]
      dsimp only
      rcases hv : (reconcileEntry env e).2 with _ | b
      · simp
      · cases b <;> simp
    rw [hpend]
    have hkeep : s.issues.map ((fun e => (reconcileEntry env2 e).1)
          ∘ fun e => (reconcileEntry env e).1)
        = s.issues.map fun e => (reconcileEntry env e).1 := by
      apply List.map_congr_left
      intro e _
      dsimp only [Function.comp]
      rw [reconcileEntry_stable env env2 hpr hbm e]
    rw [hkeep]
  · intro n st hst
    exact reconcileEntry_skip env n st hst
  · intro n st hv
    have hst : st.status = IssueStatus.readyForMerge := by
      by_contra hst
      rw [reconcileEntry_skip env n st hst] at hv
      exact absurd hv (by simp)
    have hm : prOrBranchMerged env n st = true := by
      by_contra hm
      rw [reconcileEntry_ready env n st hst, if_neg hm] at hv
      exact absurd hv (by simp)
    refine ⟨hst, ?_, ?_⟩
    · rw [prOrBranchMerged] at hm
      rcases Bool.or_eq_true_iff.mp hm with hm1 | hm1
      · cases hp : st.pr with
        | none => rw [hp] at hm1; exact absurd hm1 (by simp)
        | some p =>
          rw [hp] at hm1
          exact Or.inl ⟨p, rfl, of_decide_eq_true hm1⟩
      · exact Or.inr hm1
    · rw [reconcileEntry_ready env n st hst, if_pos hm]
  · intro n st hst hnpr hnbm
    have hcond : prOrBranchMerged env n st = false := by
      rw [prOrBranchMerged]
      cases hp : st.pr with
      | none => simp [hnbm]
      | some p =>
        simp only [hnbm, Bool.or_false]
        exact decide_eq_false (hnpr p hp)
    rw [reconcileEntry_ready env n st hst, if_neg (by simp [hcond])]
  · rw [reconcileStateAtStartup_ok env s hsave]

/-- C4 witness: one pass over the fixture document advances issue 4 and
a second pass under the same oracles changes nothing. -/
theorem reconcile_spec_witness :
    envPR7Merged.saveErr = none ∧
    (reconcileStateAtStartup envPR7Merged (LoadOutcome.ok stateDemo)).2
      = some stateDemoAfter ∧
    reconcileStateAtStartup envPR7Merged (LoadOutcome.ok stateDemoAfter)
      = ({ success := true, advanced := [],
           stillPending := (reconcileStateAtStartup envPR7Merged
             (LoadOutcome.ok stateDemo)).1.stillPending },
         some stateDemoAfter) ∧
    (reconcileStateAtStartup envPR7Merged (LoadOutcome.ok stateDemo)).1.success = true := by
  have hs1 : (reconcileStateAtStartup envPR7Merged (LoadOutcome.ok stateDemo)).2
      = some stateDemoAfter := by decide
  refine ⟨rfl, hs1, ?_, ?_⟩
  · exact (reconcile_spec envPR7Merged envPR7Merged stateDemo rfl rfl rfl rfl).1
      stateDemoAfter hs1
  · exact (reconcile_spec envPR7Merged envPR7Merged stateDemo rfl rfl rfl rfl).2.2.2.2

/-- Helper: the full shape of a cleanup run over a loaded state when
saving does not raise. -/
theorem cleanupStaleEntries_ok (opts : CleanupOptions) (env : CollabEnv)
    (s : WorkflowState) (hsave : env.saveErr = none) :
    cleanupStaleEntries opts env (LoadOutcome.ok s)
      = ({ success := true,
           removed := (s.issues.map (fun e => (cleanupEntry opts env e).2.1)).flatten,
           orphaned := (s.issues.map (fun e => (cleanupEntry opts env e).2.2.1)).flatten,
           merged := (s.issues.map (fun e => (cleanupEntry opts env e).2.2.2)).flatten },
         some { s with
           issues := (s.issues.map (fun e => (cleanupEntry opts env e).1)).flatten }) := by
  rw [cleanupStaleEntries]
  simp only [List.map_map]
  split
  · rw [hsave]
    rfl
  · rfl

/-- Helper: the outcome of one cleanup iteration on an orphaned entry
outside dry run, by branch. -/
theorem cleanupEntry_orphan (opts : CleanupOptions) (env : CollabEnv)
    (n : Nat) (st : IssueState) (w : String) (hwt : st.worktree = some w)
    (hw : w ∉ env.activeWorktrees) (hdry : opts.dryRun = false) :
    ((prMergedFor env st = true ∨ st.status = IssueStatus.merged) →
      cleanupEntry opts env (n, st) = ([], [n], [], [n])) ∧
    (¬(prMergedFor env st = true ∨ st.status = IssueStatus.merged) →
      (st.status = IssueStatus.abandoned ∨ opts.removeAll = true) →
      cleanupEntry opts env (n, st) = ([], [n], [n], [])) ∧
    (¬(prMergedFor env st = true ∨ st.status = IssueStatus.merged) →
      ¬(st.status = IssueStatus.abandoned ∨ opts.removeAll = true) →
      cleanupEntry opts env (n, st)
        = ([(n, ({ st with status := IssueStatus.abandoned }))], [], [n], [])) := by
  refine ⟨?_, ?_, ?_⟩
  · intro hm
    simp only [cleanupEntry, hwt]
    rw [if_pos hw, if_pos (by simp [hdry]), if_pos hm]
  · intro hm hab
    simp only [cleanupEntry, hwt]
    rw [if_pos hw, if_pos (by simp [hdry]), if_neg hm, if_pos hab]
  · intro hm hab
    simp only [cleanupEntry, hwt]
    rw [if_pos hw, if_pos (by simp [hdry]), if_neg hm, if_neg hab]

/-- Helper: every number a cleanup iteration reports, and the key of
every entry it keeps, is the key of the entry it processed. -/
theorem cleanupEntry_keys (opts : CleanupOptions) (env : CollabEnv)
    (k : Nat) (st : IssueState) :
    (∀ m ∈ (cleanupEntry opts env (k, st)).2.1, m = k) ∧
    (∀ m ∈ (cleanupEntry opts env (k, st)).2.2.1, m = k) ∧
    (∀ m ∈ (cleanupEntry opts env (k, st)).2.2.2, m = k) ∧
    (∀ e2 ∈ (cleanupEntry opts env (k, st)).1, e2.1 = k) := by
  rcases hwt : st.worktree with _ | w <;>
    rcases hage : opts.maxAgeDays with _ | d <;>
      simp only [cleanupEntry, hwt, hage] <;>
        (try split_ifs) <;> simp

/-- Helper: in a document whose keys are unique, two stored entries with
one key are one entry. -/
theorem entry_eq_of_key_eq {l : List (Nat × IssueState)}
    (h : (l.map Prod.fst).Nodup) {a b : Nat × IssueState}
    (ha : a ∈ l) (hb : b ∈ l) (hk : a.1 = b.1) : a = b := by
  induction l with
  | nil => cases ha
  | cons c tl ih =>
    rw [List.map_cons, List.nodup_cons] at h
    rcases List.mem_cons.mp ha with rfl | ha2
    · rcases List.mem_cons.mp hb with rfl | hb2
      · rfl
      · exfalso
        apply h.1
        rw [hk]
        exact List.mem_map_of_mem Prod.fst hb2
    · rcases List.mem_cons.mp hb with rfl | hb2
      · exfalso
        apply h.1
        rw [← hk]
        exact List.mem_map_of_mem Prod.fst ha2
      · exact ih h.2 ha2 hb2

/-- C5: any tracked issue whose recorded worktree is no longer active is
removed (and counted merged) when its PR is merged or its status already
is; removed when it is already abandoned or a force-remove option is
set; and otherwise marked abandoned and retained for review — in
particular an issue whose worktree vanished while its PR is open is kept
with status abandoned and not removed. -/
theorem cleanup_orphan_spec (opts : CleanupOptions) (env : CollabEnv)
    (s : WorkflowState) (n : Nat) (st : IssueState) (w : String)
    (hmem : (n, st) ∈ s.issues) (hnodup : (s.issues.map Prod.fst).Nodup)
    (hwt : st.worktree = some w) (hw : w ∉ env.activeWorktrees)
    (hdry : opts.dryRun = false) (hsave : env.saveErr = none) :
    (cleanupStaleEntries opts env (LoadOutcome.ok s)).1.success = true ∧
    ((prMergedFor env st = true ∨ st.status = IssueStatus.merged) →
      n ∈ (cleanupStaleEntries opts env (LoadOutcome.ok s)).1.merged ∧
      n ∈ (cleanupStaleEntries opts env (LoadOutcome.ok s)).1.removed ∧
      (∀ s2, (cleanupStaleEntries opts env (LoadOutcome.ok s)).2 = some s2 →
        n ∉ s2.issues.map Prod.fst)) ∧
    (prMergedFor env st = false → st.status ≠ IssueStatus.merged →
      (st.status = IssueStatus.abandoned ∨ opts.removeAll = true) →
      n ∈ (cleanupStaleEntries opts env (LoadOutcome.ok s)).1.orphaned ∧
      n ∈ (cleanupStaleEntries opts env (LoadOutcome.ok s)).1.removed ∧
      (∀ s2, (cleanupStaleEntries opts env (LoadOutcome.ok s)).2 = some s2 →
        n ∉ s2.issues.map Prod.fst)) ∧
    (prMergedFor env st = false → st.status ≠ IssueStatus.merged →
      st.status ≠ IssueStatus.abandoned → opts.removeAll = false →
      n ∈ (cleanupStaleEntries opts env (LoadOutcome.ok s)).1.orphaned ∧
      n ∉ (cleanupStaleEntries opts env (LoadOutcome.ok s)).1.removed ∧
      (∀ s2, (cleanupStaleEntries opts env (LoadOutcome.ok s)).2 = some s2 →
        (n, ({ st with status := IssueStatus.abandoned })) ∈ s2.issues)) := by
  have hok := cleanupStaleEntries_ok opts env s hsave
  have hbranch := cleanupEntry_orphan opts env n st w hwt hw hdry
  have hposmem : ∀ g : Nat × IssueState → List Nat,
      n ∈ g (n, st) → n ∈ (s.issues.map g).flatten := by
    intro g hg
    exact List.mem_flatten.mpr ⟨g (n, st), List.mem_map_of_mem g hmem, hg⟩
  have hnegmem : ∀ g : Nat × IssueState → List Nat,
      (∀ (e : Nat × IssueState), e ∈ s.issues → ∀ m ∈ g e, m = e.1) →
      g (n, st) = [] → n ∉ (s.issues.map g).flatten := by
    intro g hbound hself hmemF
    obtain ⟨t, ht, hnt⟩ := List.mem_flatten.mp hmemF
    obtain ⟨e, he, rfl⟩ := List.mem_map.mp ht
    have hkey : n = e.1 := hbound e he n hnt
    have : e = (n, st) := entry_eq_of_key_eq hnodup he hmem hkey.symm
    rw [this, hself] at hnt
    cases hnt
  have hnegkey : (cleanupEntry opts env (n, st)).1 = [] →
      n ∉ ((s.issues.map (fun e => (cleanupEntry opts env e).1)).flatten).map Prod.fst := by
    intro hself hmemF
    obtain ⟨e2, he2, hk2⟩ := List.mem_map.mp hmemF
    obtain ⟨t, ht, hnt⟩ := List.mem_flatten.mp he2
    obtain ⟨e, he, rfl⟩ := List.mem_map.mp ht
    have hkey : e2.1 = e.1 := (cleanupEntry_keys opts env e.1 e.2).2.2.2 e2 (by
      simpa using hnt)
    have : e = (n, st) := entry_eq_of_key_eq hnodup he hmem (by rw [← hkey, hk2])
    rw [this, hself] at hnt
    cases hnt
  refine ⟨by rw [hok], ?_, ?_, ?_⟩
  · intro hm
    have hentry := hbranch.1 hm
    refine ⟨?_, ?_, ?_⟩
    · rw [hok]
      exact hposmem _ (by rw [hentry]; simp)
    · rw [hok]
      exact hposmem _ (by rw [hentry]; simp)
    · intro s2 hs2
      rw [hok] at hs2
      have hs2eq := Option.some_inj.mp hs2.symm
      rw [hs2eq]
      exact hnegkey (by rw [hentry])
  · intro hpm hsm hab
    have hentry := hbranch.2.1 (by simp [hpm, hsm]) hab
    refine ⟨?_, ?_, ?_⟩
    · rw [hok]
      exact hposmem _ (by rw [hentry]; simp)
    · rw [hok]
      exact hposmem _ (by rw [hentry]; simp)
    · intro s2 hs2
      rw [hok] at hs2
      have hs2eq := Option.some_inj.mp hs2.symm
      rw [hs2eq]
      exact hnegkey (by rw [hentry])
  · intro hpm hsm hsab hra
    have hentry := hbranch.2.2 (by simp [hpm, hsm]) (by simp [hsab, hra])
    refine ⟨?_, ?_, ?_⟩
    · rw [hok]
      exact hposmem _ (by rw [hentry]; simp)
    · rw [hok]
      apply hnegmem _ (fun e he m hm => (cleanupEntry_keys opts env e.1 e.2).1 m (by
        simpa using hm))
      rw [hentry]
    · intro s2 hs2
      rw [hok] at hs2
      have hs2eq := Option.some_inj.mp hs2.symm
      rw [hs2eq]
      dsimp only
      refine List.mem_flatten.mpr ⟨(cleanupEntry opts env (n, st)).1, ?_, ?_⟩
      · exact List.mem_map_of_mem _ hmem
      · rw [hentry]
        simp

/-- C5 witness: in the fixture document, issue 12 lost its worktree
while its PR is open, so cleanup under default options marks it
abandoned and keeps it; the saved document is stateDemoCleaned. -/
theorem cleanup_orphan_spec_witness :
    (cleanupStaleEntries {} envPR7Merged (LoadOutcome.ok stateDemo)).2
      = some stateDemoCleaned ∧
    (cleanupStaleEntries {} envPR7Merged (LoadOutcome.ok stateDemo)).1.success = true ∧
    12 ∈ (cleanupStaleEntries {} envPR7Merged (LoadOutcome.ok stateDemo)).1.orphaned ∧
    12 ∉ (cleanupStaleEntries {} envPR7Merged (LoadOutcome.ok stateDemo)).1.removed ∧
    (12, issueOrphanAbandoned) ∈ stateDemoCleaned.issues := by
  have hs2 : (cleanupStaleEntries {} envPR7Merged (LoadOutcome.ok stateDemo)).2
      = some stateDemoCleaned := by decide
  have h := cleanup_orphan_spec {} envPR7Merged stateDemo 12 issueOrphanOpen "/work/gone"
    (by decide) (by decide) rfl (by decide) rfl rfl
  have h3 := h.2.2.2 rfl (by decide) (by decide) rfl
  exact ⟨hs2, h.1, h3.1, h3.2.1, h3.2.2 stateDemoCleaned hs2⟩

/-- Helper: invariant of the racing save system: each temporary file
tracks the program counter of its owning save (absent, mid-write of the
stamped document, completely written, renamed away), and the target path
holds either its initial content or the complete stamped document of a
save that has renamed. -/
theorem saveSys_invariant (n : Nat) (docs : Fin n → WorkflowState)
    (times : Fin n → Nat) (t0 : FileVal) (s : SaveSys n)
    (hr : SaveReachable n docs times t0 s) :
    (∀ i, (s.pc i = 0 ∧ s.temp i = FileVal.absent) ∨
      (s.pc i = 1 ∧ s.temp i = FileVal.writing (stampState (times i) (docs i))) ∨
      (s.pc i = 2 ∧ s.temp i = FileVal.complete (stampState (times i) (docs i))) ∨
      (s.pc i = 3 ∧ s.temp i = FileVal.absent)) ∧
    (s.target = t0 ∨
      ∃ i, s.pc i = 3 ∧ s.target = FileVal.complete (stampState (times i) (docs i))) := by
  induction hr with
  | refl => exact ⟨fun i => Or.inl ⟨rfl, rfl⟩, Or.inl rfl⟩
  | @tail b c hab hbc ih =>
    cases hbc with
    | beginWrite i hpc =>
      refine ⟨?_, ?_⟩
      · intro j
        by_cases hj : j = i
        · subst hj
          right; left
          exact ⟨by simp, by simp⟩
        · rcases ih.1 j with ⟨h1, h2⟩ | ⟨h1, h2⟩ | ⟨h1, h2⟩ | ⟨h1, h2⟩
          · exact Or.inl ⟨by simpa [Function.update_noteq hj] using h1,
              by simpa [Function.update_noteq hj] using h2⟩
          · exact Or.inr (Or.inl ⟨by simpa [Function.update_noteq hj] using h1,
              by simpa [Function.update_noteq hj] using h2⟩)
          · exact Or.inr (Or.inr (Or.inl ⟨by simpa [Function.update_noteq hj] using h1,
              by simpa [Function.update_noteq hj] using h2⟩))
          · exact Or.inr (Or.inr (Or.inr ⟨by simpa [Function.update_noteq hj] using h1,
              by simpa [Function.update_noteq hj] using h2⟩))
      · rcases ih.2 with h | ⟨j, hj3, hjt⟩
        · exact Or.inl h
        · right
          have hji : j ≠ i := by
            intro he
            rw [he, hpc] at hj3
            cases hj3
          exact ⟨j, by simpa [Function.update_noteq hji] using hj3, hjt⟩
    | endWrite i hpc =>
      refine ⟨?_, ?_⟩
      · intro j
        by_cases hj : j = i
        · subst hj
          right; right; left
          exact ⟨by simp, by simp⟩
        · rcases ih.1 j with ⟨h1, h2⟩ | ⟨h1, h2⟩ | ⟨h1, h2⟩ | ⟨h1, h2⟩
          · exact Or.inl ⟨by simpa [Function.update_noteq hj] using h1,
              by simpa [Function.update_noteq hj] using h2⟩
          · exact Or.inr (Or.inl ⟨by simpa [Function.update_noteq hj] using h1,
              by simpa [Function.update_noteq hj] using h2⟩)
          · exact Or.inr (Or.inr (Or.inl ⟨by simpa [Function.update_noteq hj] using h1,
              by simpa [Function.update_noteq hj] using h2⟩))
          · exact Or.inr (Or.inr (Or.inr ⟨by simpa [Function.update_noteq hj] using h1,
              by simpa [Function.update_noteq hj] using h2⟩))
      · rcases ih.2 with h | ⟨j, hj3, hjt⟩
        · exact Or.inl h
        · right
          have hji : j ≠ i := by
            intro he
            rw [he, hpc] at hj3
            cases hj3
          exact ⟨j, by simpa [Function.update_noteq hji] using hj3, hjt⟩
    | rename i hpc =>
      have htemp : b.temp i = FileVal.complete (stampState (times i) (docs i)) := by
        rcases ih.1 i with ⟨h1, _⟩ | ⟨h1, _⟩ | ⟨_, h2⟩ | ⟨h1, _⟩
        · rw [hpc] at h1; cases h1
        · rw [hpc] at h1; cases h1
        · exact h2
        · rw [hpc] at h1; cases h1
      refine ⟨?_, ?_⟩
      · intro j
        by_cases hj : j = i
        · subst hj
          right; right; right
          exact ⟨by simp, by simp⟩
        · rcases ih.1 j with ⟨h1, h2⟩ | ⟨h1, h2⟩ | ⟨h1, h2⟩ | ⟨h1, h2⟩
          · exact Or.inl ⟨by simpa [Function.update_noteq hj] using h1,
              by simpa [Function.update_noteq hj] using h2⟩
          · exact Or.inr (Or.inl ⟨by simpa [Function.update_noteq hj] using h1,
              by simpa [Function.update_noteq hj] using h2⟩)
          · exact Or.inr (Or.inr (Or.inl ⟨by simpa [Function.update_noteq hj] using h1,
              by simpa [Function.update_noteq hj] using h2⟩))
          · exact Or.inr (Or.inr (Or.inr ⟨by simpa [Function.update_noteq hj] using h1,
              by simpa [Function.update_noteq hj] using h2⟩))
      · right
        exact ⟨i, by simp, by simpa using htemp⟩

/-- C2: under any interleaving of concurrent saveState calls, the target
state document is never observed mid-write: at every reachable instant
it holds either its initial content or the complete, lastUpdated-stamped
document of one of the saves, so the on-disk document is always a whole
schema level value. -/
theorem atomic_save_never_partial (n : Nat) (docs : Fin n → WorkflowState)
    (times : Fin n → Nat) (t0 : FileVal) (s : SaveSys n)
    (h0 : ∀ d, t0 ≠ FileVal.writing d)
    (hr : SaveReachable n docs times t0 s) :
    (∀ d, s.target ≠ FileVal.writing d) ∧
    (s.target = t0 ∨
      ∃ i, s.target = FileVal.complete (stampState (times i) (docs i))) := by
  obtain ⟨-, htgt⟩ := saveSys_invariant n docs times t0 s hr
  rcases htgt with h | ⟨i, -, h⟩
  · constructor
    · rw [h]; exact h0
    · exact Or.inl h
  · constructor
    · rw [h]; intro d hcon; cases hcon
    · exact Or.inr ⟨i, h⟩

/-- C2 witness: a concrete interleaving of the two demo saves (both open
their temporary files, both finish writing, save 1 renames, save 0
renames last) ends with the target holding a complete stamped document
and never a partial one. -/
theorem atomic_save_never_partial_witness :
    (∀ d, FileVal.absent ≠ FileVal.writing d) ∧
    ((∀ d, saveDemoFinal.target ≠ FileVal.writing d) ∧
      (saveDemoFinal.target = FileVal.absent ∨
        ∃ i, saveDemoFinal.target
          = FileVal.complete (stampState (saveDemoTimes i) (saveDemoDocs i)))) := by
  have h0 : ∀ d, FileVal.absent ≠ FileVal.writing d := by
    intro d hcon
    cases hcon
  have hreach : SaveReachable 2 saveDemoDocs saveDemoTimes FileVal.absent saveDemoFinal :=
    Relation.ReflTransGen.tail
      (Relation.ReflTransGen.tail
        (Relation.ReflTransGen.tail
          (Relation.ReflTransGen.tail
            (Relation.ReflTransGen.tail
              (Relation.ReflTransGen.tail Relation.ReflTransGen.refl
                (SaveStep.beginWrite _ 0 rfl))
              (SaveStep.beginWrite _ 1 rfl))
            (SaveStep.endWrite _ 0 rfl))
          (SaveStep.endWrite _ 1 rfl))
        (SaveStep.rename _ 1 rfl))
      (SaveStep.rename _ 0 rfl)
  exact ⟨h0, atomic_save_never_partial 2 saveDemoDocs saveDemoTimes FileVal.absent
    saveDemoFinal h0 hreach⟩

end Sequant
